import Mathlib

/-!
Verification development for the offline tile cache / preloader subsystem of
the semana-santa-tracker repository.

The TypeScript source is shallowly embedded:

* JavaScript numbers used in the slippy-map coordinate formulas are modelled
  as real numbers (`ℝ`), with `Math.floor` as `Int.floor`.
* Rational progress arithmetic (`Math.round(((loaded+failed)/total)*100)`) is
  modelled exactly over `ℚ`, with `Math.round x = ⌊x + 1/2⌋` (JavaScript
  rounds half up for the non-negative values occurring here).
* The IndexedDB object store backing `TileCache` is modelled as an
  association list from string cache keys to blobs; a blob payload is
  abstracted to a natural number.
* Asynchronous fallible operations (IndexedDB requests, network `fetch`)
  are modelled as `Except Unit` values supplied by an environment; a
  JavaScript `try/catch` block is the explicit `tryCatchE` combinator.
* The single-threaded event loop makes every `x++; updateProgress()` pair
  atomic, so a preload run is modelled as a fold over the per-tile
  environments; quantifying over all environment lists covers every
  interleaving of the batched version.
-/

namespace SemanaSanta

/-- Geographic bounding box, from `TILE_CACHE_CONFIG.huelvaBounds` shape
(`{north, south, east, west}` in float degrees). -/
structure BoundingBox where
  north : ℝ
  south : ℝ
  east : ℝ
  west : ℝ

/-- Embedding of `latLngToTile` (src/services/tile-cache.ts):
`x = Math.floor(((lng + 180) / 360) * Math.pow(2, zoom))`,
`y = Math.floor(((1 - Math.log(Math.tan(lat*PI/180) + 1/Math.cos(lat*PI/180)) / Math.PI) / 2) * Math.pow(2, zoom))`. -/
noncomputable def latLngToTile (lat lng : ℝ) (zoom : ℕ) : ℤ × ℤ :=
  (⌊(lng + 180) / 360 * 2 ^ zoom⌋,
   ⌊(1 - Real.log (Real.tan (lat * Real.pi / 180) + 1 / Real.cos (lat * Real.pi / 180)) / Real.pi) / 2 * 2 ^ zoom⌋)

/-- The spec's x-formula: `floor((lon+180)/360 * 2^zoom)`. -/
noncomputable def specTileX (lng : ℝ) (zoom : ℕ) : ℤ :=
  ⌊(lng + 180) / 360 * 2 ^ zoom⌋

/-- The spec's y-formula: `floor((1 - ln(tan(lat·π/180) + sec(lat·π/180))/π) / 2 * 2^zoom)`,
with `sec θ` written as `(cos θ)⁻¹`. -/
noncomputable def specTileY (lat : ℝ) (zoom : ℕ) : ℤ :=
  ⌊(1 - Real.log (Real.tan (lat * Real.pi / 180) + (Real.cos (lat * Real.pi / 180))⁻¹) / Real.pi) / 2 * 2 ^ zoom⌋

/-- A tile coordinate `{z, x, y}` as produced by `getTilesForBounds`. -/
structure Tile where
  z : ℕ
  x : ℤ
  y : ℤ
deriving DecidableEq, Repr

/-- The integers from `a` to `b` inclusive, in order — the index sequence of
the JavaScript loop `for (let x = a; x <= b; x++)`. -/
def intRange (a b : ℤ) : List ℤ :=
  (List.range (b + 1 - a).toNat).map (fun i : ℕ => a + (i : ℤ))

/-- Embedding of `getTilesForBounds` (src/services/tile-cache.ts): for each
zoom `z` in `zoomLevels`, `topLeft = latLngToTile(north, west, z)`,
`bottomRight = latLngToTile(south, east, z)`, and the nested loops push
`{z, x, y}` for `x` from `topLeft.x` to `bottomRight.x` and `y` from
`topLeft.y` to `bottomRight.y` (both inclusive). -/
noncomputable def getTilesForBounds (bounds : BoundingBox) (zoomLevels : List ℕ) : List Tile :=
  zoomLevels.flatMap (fun z =>
    let topLeft := latLngToTile bounds.north bounds.west z
    let bottomRight := latLngToTile bounds.south bounds.east z
    (intRange topLeft.1 bottomRight.1).flatMap (fun x =>
      (intRange topLeft.2 bottomRight.2).map (fun y => ⟨z, x, y⟩)))

/-! ## Tile Store (`TileCache` in src/services/tile-cache.ts)

The IndexedDB object store is an association list from string cache keys to
blobs; `store.put` is an upsert, `store.get` a point lookup returning
`undefined` (here `none`) for a missing key. The `db` field is the lazily
opened connection handle: `none` before `init`, `some ()` after. -/

/-- A tile image payload, abstracted to a natural number (blob contents are
never inspected by the embedded code). -/
abbrev Blob := ℕ

/-- First-match lookup in an association list (IndexedDB `store.get`). -/
def assocGet {α : Type} : List (String × α) → String → Option α
  | [], _ => none
  | (k, v) :: rest, key => if k = key then some v else assocGet rest key

/-- Remove every binding of a key from an association list. -/
def assocErase {α : Type} : List (String × α) → String → List (String × α)
  | [], _ => []
  | (k, v) :: rest, key =>
    if k = key then assocErase rest key else (k, v) :: assocErase rest key

/-- Upsert (IndexedDB `store.put`): the new binding replaces any old one. -/
def assocPut {α : Type} (s : List (String × α)) (key : String) (v : α) : List (String × α) :=
  (key, v) :: assocErase s key

namespace TileCache

/-- Embedding of `TileCache.getKey(z, x, y)`: the string `z + '/' + x + '/' + y`. -/
def getKey (z : ℕ) (x y : ℤ) : String :=
  toString z ++ "/" ++ toString x ++ "/" ++ toString y

/-- The persistent IndexedDB object store contents. -/
abbrev Store := List (String × Blob)

/-- State of the `TileCache` singleton: the connection handle `db`
(`null` before initialization) plus the persistent backing store. -/
structure State where
  db : Option Unit
  store : Store
deriving DecidableEq

/-- Embedding of `TileCache.init()`: opens the database connection
(`this.db = request.result`). The persistent contents are untouched. -/
def init (s : State) : State := { s with db := some () }

/-- The lazy-initialization guard `if (!this.db) await this.init();` that
opens every data operation. -/
def ensure (s : State) : State := if s.db = none then init s else s

/-- Embedding of `TileCache.getTile(z, x, y)`: lazy init, then a point
lookup; a missing key resolves to `undefined` (`none`), not an error. -/
def getTile (s : State) (z : ℕ) (x y : ℤ) : Option Blob × State :=
  (assocGet (ensure s).store (getKey z x y), ensure s)

/-- Embedding of `TileCache.saveTile(z, x, y, blob)`: lazy init, then
`store.put(blob, getKey(z, x, y))`, an unconditional upsert. -/
def saveTile (s : State) (z : ℕ) (x y : ℤ) (blob : Blob) : State :=
  { ensure s with store := assocPut (ensure s).store (getKey z x y) blob }

/-- Embedding of `TileCache.hasTile(z, x, y)`: `(await getTile(...)) !== undefined`. -/
def hasTile (s : State) (z : ℕ) (x y : ℤ) : Bool × State :=
  (decide ((getTile s z x y).1 ≠ none), (getTile s z x y).2)

/-- Embedding of `TileCache.getStats()`: lazy init, then `store.count()`. -/
def getStats (s : State) : ℕ × State :=
  ((ensure s).store.length, ensure s)

/-- Embedding of `TileCache.clear()`: lazy init, then `store.clear()`. -/
def clear (s : State) : State :=
  { ensure s with store := [] }

/-- Apply a list of later `saveTile` writes `((z, x, y), blob)` in order. -/
def applyWrites (s : State) (ws : List ((ℕ × ℤ × ℤ) × Blob)) : State :=
  ws.foldl (fun st w => saveTile st w.1.1 w.1.2.1 w.1.2.2 w.2) s

end TileCache

/-! ## Bulk Preloader (`TilePreloader` in src/services/tile-preloader.ts)

Each tile attempt runs `preloadTile`, whose awaited operations
(`TileCache.getTile`, network `fetch`, `TileCache.saveTile`) are supplied by
a per-tile environment of `Except Unit` results. The `x++; updateProgress()`
pairs execute atomically on the single-threaded event loop, so a run is a
fold over the per-tile environments; quantifying over every environment list
covers every outcome order the batched (`Promise.all`) version can produce. -/

/-- The `PreloadProgress` record emitted to observers. -/
structure PreloadProgress where
  total : ℕ
  loaded : ℕ
  failed : ℕ
  percentage : ℤ
  isComplete : Bool
deriving DecidableEq

/-- JavaScript `Math.round` on the non-negative rationals occurring here:
round half up, `⌊q + 1/2⌋`. -/
def jsRound (q : ℚ) : ℤ := ⌊q + 1 / 2⌋

namespace TilePreloader

/-- Embedding of `TilePreloader.updateProgress()`: recompute
`percentage = Math.round(((loaded + failed) / total) * 100)` and
`isComplete = (loaded + failed) >= total`, then emit the record. -/
def updateProgress (p : PreloadProgress) : PreloadProgress :=
  { p with
    percentage := jsRound (((p.loaded : ℚ) + (p.failed : ℚ)) / (p.total : ℚ) * 100),
    isComplete := decide (p.total ≤ p.loaded + p.failed) }

instance {ε α : Type} [DecidableEq ε] [DecidableEq α] : DecidableEq (Except ε α) :=
  fun x y =>
    match x, y with
    | Except.ok a, Except.ok b =>
      if h : a = b then isTrue (by rw [h]) else isFalse (fun hc => h (Except.ok.inj hc))
    | Except.error a, Except.error b =>
      if h : a = b then isTrue (by rw [h]) else isFalse (fun hc => h (Except.error.inj hc))
    | Except.ok _, Except.error _ => isFalse (fun hc => Except.noConfusion hc)
    | Except.error _, Except.ok _ => isFalse (fun hc => Except.noConfusion hc)

/-- Results of the awaited operations inside one `preloadTile` call:
the `TileCache.getTile` lookup (which may reject, or resolve to
`undefined`/a blob), the network `fetch` (rejection also covers
`!response.ok`), and the `TileCache.saveTile` write. -/
structure TileEnv where
  tile : Tile
  getTileResult : Except Unit (Option Blob)
  fetchResult : Except Unit Blob
  saveResult : Except Unit Unit
deriving DecidableEq

/-- A JavaScript `try { body } catch (e) { handler }` block over the
`Except Unit` error monad. -/
def tryCatchE {α : Type} (body : Except Unit α) (handler : Unit → Except Unit α) :
    Except Unit α :=
  match body with
  | Except.ok a => Except.ok a
  | Except.error e => handler e

/-- `this.progress.loaded++; this.updateProgress();`. -/
def countLoaded (p : PreloadProgress) : PreloadProgress :=
  updateProgress { p with loaded := p.loaded + 1 }

/-- `this.progress.failed++; this.updateProgress();`. -/
def countFailed (p : PreloadProgress) : PreloadProgress :=
  updateProgress { p with failed := p.failed + 1 }

/-- Embedding of `TilePreloader.preloadTile(tile)`: first `try` block checks
the cache (`getTile`; a truthy result counts as loaded and returns `true`; a
rejection falls through to fetching), second `try` block fetches and saves
(any rejection is caught, counted as failed, and returns `false`). The
result pairs the returned boolean with the updated progress. -/
def preloadTile (env : TileEnv) (p : PreloadProgress) :
    Except Unit (Bool × PreloadProgress) :=
  (tryCatchE
      (match env.getTileResult with
       | Except.error e => Except.error e
       | Except.ok (some _) => Except.ok (some (true, countLoaded p))
       | Except.ok none => Except.ok none)
      (fun _ => Except.ok none)).bind
    (fun firstTry =>
      match firstTry with
      | some result => Except.ok result
      | none =>
        tryCatchE
          (match env.fetchResult with
           | Except.error e => Except.error e
           | Except.ok _ =>
             match env.saveResult with
             | Except.error e => Except.error e
             | Except.ok _ => Except.ok (true, countLoaded p))
          (fun _ => Except.ok (false, countFailed p)))

/-- Whether one tile attempt ends in the loaded (`true`) or failed (`false`)
counter: a cache hit or a successful fetch-and-save loads, everything else
fails. -/
def tileSuccess (env : TileEnv) : Bool :=
  match env.getTileResult with
  | Except.ok (some _) => true
  | _ =>
    match env.fetchResult, env.saveResult with
    | Except.ok _, Except.ok _ => true
    | _, _ => false

/-- The progress after one tile attempt. -/
def applyTile (p : PreloadProgress) (env : TileEnv) : PreloadProgress :=
  if tileSuccess env then countLoaded p else countFailed p

/-- The progress object rebuilt at the start of `preloadAll`:
`{ total: tiles.length, loaded: 0, failed: 0, percentage: 0, isComplete: false }`. -/
def resetProgress (n : ℕ) : PreloadProgress :=
  { total := n, loaded := 0, failed := 0, percentage := 0, isComplete := false }

/-- The progress records emitted by the tile attempts of a run, starting
from progress `p`; a rejected attempt would abort the run (none is ever
rejected — see `preloadTile_ok`). -/
def emittedFrom (p : PreloadProgress) : List TileEnv → List PreloadProgress
  | [] => []
  | env :: rest =>
    match preloadTile env p with
    | Except.error _ => []
    | Except.ok (_, q) => q :: emittedFrom q rest

/-- All progress records emitted during a `preloadAll` run over the given
per-tile environments: the initial `updateProgress()` right after the reset,
then one per tile attempt. -/
def emitted (envs : List TileEnv) : List PreloadProgress :=
  updateProgress (resetProgress envs.length) ::
    emittedFrom (updateProgress (resetProgress envs.length)) envs

/-- The tile-processing loop of `preloadAll` from a given progress: each
tile attempt feeds the next (batching only interleaves attempt order, which
the choice of environment list already covers). -/
def preloadAllFrom (p : PreloadProgress) (envs : List TileEnv) :
    Except Unit PreloadProgress :=
  envs.foldlM (fun q env => (preloadTile env q).map Prod.snd) p

/-- State of the `TilePreloader` singleton. -/
structure State where
  isPreloading : Bool
  progress : PreloadProgress
deriving DecidableEq

/-- Embedding of `TilePreloader.preloadAll()`: if `isPreloading` it logs and
returns at once; otherwise it resets the progress, emits it, processes every
tile, clears `isPreloading` and returns the final progress. The second
component counts the tile attempts started. -/
def preloadAll (s : State) (envs : List TileEnv) : Except Unit (State × ℕ) :=
  if s.isPreloading then Except.ok (s, 0)
  else
    (preloadAllFrom (updateProgress (resetProgress envs.length)) envs).map
      (fun final => ({ isPreloading := false, progress := final }, envs.length))

/-- The record returned by `checkCachedCount()`. -/
structure CachedResult where
  total : ℕ
  cached : ℕ
  percentage : ℤ
deriving DecidableEq

/-- Observable Tile Store / network operations, for effect accounting. -/
inductive CacheOp where
  | hasTileOp : Tile → CacheOp
  | fetchOp : Tile → CacheOp
deriving DecidableEq

/-- One iteration of the `checkCachedCount` loop body
`try { const exists = await TileCache.hasTile(...); if (exists) cached++ } catch (e) { }`,
threading the operations performed and the `cached` counter. -/
def checkStep (hasResult : Tile → Except Unit Bool) (acc : List CacheOp × ℕ) (t : Tile) :
    List CacheOp × ℕ :=
  (acc.1 ++ [CacheOp.hasTileOp t],
   match hasResult t with
   | Except.ok true => acc.2 + 1
   | _ => acc.2)

/-- Embedding of `TilePreloader.checkCachedCount()`, instrumented with the
list of operations it performs: it walks `this.tiles` (the same array
`preloadAll` iterates) running one `hasTile` check per tile — a rejected
check is ignored — and returns `{ total, cached, percentage }`.
`hasResult` supplies each check's outcome. -/
def checkCachedCount (tiles : List Tile) (hasResult : Tile → Except Unit Bool) :
    List CacheOp × CachedResult :=
  ((tiles.foldl (checkStep hasResult) ([], 0)).1,
   { total := tiles.length,
     cached := (tiles.foldl (checkStep hasResult) ([], 0)).2,
     percentage := jsRound (((tiles.foldl (checkStep hasResult) ([], 0)).2 : ℚ)
       / (tiles.length : ℚ) * 100) })

/-- A progress record whose derived fields were computed by
`updateProgress` from its own counters. -/
def GoodProgress (p : PreloadProgress) : Prop :=
  p.percentage = jsRound (((p.loaded : ℚ) + (p.failed : ℚ)) / (p.total : ℚ) * 100) ∧
  p.isComplete = decide (p.total ≤ p.loaded + p.failed)

end TilePreloader

/-! ## Host-side hook (`useTilePreload` in src/hooks/use-tile-preload.ts)

AsyncStorage is modelled as an association list from string keys to string
values; the hook's React state is the `HookState` record. -/

namespace UseTilePreload

/-- The durable key-value store behind AsyncStorage. -/
abbrev KVStore := List (String × String)

/-- The storage key `PRELOAD_STATUS_KEY = '@SemanaSanta:tilesPreloaded'`. -/
def PRELOAD_STATUS_KEY : String := "@SemanaSanta:tilesPreloaded"

/-- The hook's React state: `progress`, `isPreloaded`, `isFirstLoad`. -/
structure HookState where
  progress : Option PreloadProgress
  isPreloaded : Bool
  isFirstLoad : Bool
deriving DecidableEq

/-- Embedding of the hook's `handleProgress` callback: store the new
progress, and when `newProgress.isComplete && newProgress.percentage >= 90`
write `'true'` under `PRELOAD_STATUS_KEY` and flip the preloaded flags. -/
def handleProgress (newProgress : PreloadProgress) (kv : KVStore) (ui : HookState) :
    KVStore × HookState :=
  if newProgress.isComplete && decide (90 ≤ newProgress.percentage) then
    (assocPut kv PRELOAD_STATUS_KEY "true",
     { progress := some newProgress, isPreloaded := true, isFirstLoad := false })
  else
    (kv, { ui with progress := some newProgress })

/-- Embedding of the mount-time effect `checkPreloadStatus`: read
`PRELOAD_STATUS_KEY` once and flip the flags when the value is `'true'`. -/
def checkPreloadStatus (kv : KVStore) (ui : HookState) : HookState :=
  if assocGet kv PRELOAD_STATUS_KEY = some "true" then
    { ui with isPreloaded := true, isFirstLoad := false }
  else ui

/-- Embedding of `resetPreloadStatus`: remove the key and reset the state. -/
def resetPreloadStatus (kv : KVStore) : KVStore × HookState :=
  (assocErase kv PRELOAD_STATUS_KEY,
   { progress := none, isPreloaded := false, isFirstLoad := true })

end UseTilePreload

/-! ## Concrete inputs used by the witness theorems -/

/-- A tile attempt that hits the cache. -/
def envHit : TilePreloader.TileEnv :=
  ⟨⟨16, 32485, 25878⟩, Except.ok (some 7), Except.ok 7, Except.ok ()⟩

/-- A tile attempt that misses the cache and fetches successfully. -/
def envFetch : TilePreloader.TileEnv :=
  ⟨⟨16, 32486, 25878⟩, Except.ok none, Except.ok 9, Except.ok ()⟩

/-- A tile attempt whose network fetch rejects. -/
def envFail : TilePreloader.TileEnv :=
  ⟨⟨16, 32487, 25878⟩, Except.ok none, Except.error (), Except.error ()⟩

/-- Outcomes of the `hasTile` checks used by the `checkCachedCount` witness:
one cached tile, one missing, one whose check rejects. -/
def hasResultW : Tile → Except Unit Bool := fun t =>
  if t = (⟨16, 32485, 25878⟩ : Tile) then Except.ok true
  else if t = (⟨16, 32486, 25878⟩ : Tile) then Except.ok false
  else Except.error ()

lemma mem_intRange {a b x : ℤ} : x ∈ intRange a b ↔ a ≤ x ∧ x ≤ b := by
  unfold intRange
  simp only [List.mem_map, List.mem_range]
  constructor
  · rintro ⟨i, hi, rfl⟩
    omega
  · rintro ⟨h1, h2⟩
    exact ⟨(x - a).toNat, by omega, by omega⟩

lemma latLngToTile_fst (lat lng : ℝ) (zoom : ℕ) :
    (latLngToTile lat lng zoom).1 = specTileX lng zoom := rfl

lemma latLngToTile_snd (lat lng : ℝ) (zoom : ℕ) :
    (latLngToTile lat lng zoom).2 = specTileY lat zoom := by
  unfold latLngToTile specTileY
  rw [one_div]

/-- Claim C1: `latLngToTile` computes exactly the spec's slippy-map formulas
for both coordinates, and the computation is deterministic and idempotent:
recomputing on the same input yields an identical pair. -/
theorem latLngToTile_spec (lat lng : ℝ) (zoom : ℕ) :
    latLngToTile lat lng zoom = (specTileX lng zoom, specTileY lat zoom) ∧
    latLngToTile lat lng zoom = latLngToTile lat lng zoom := by
  refine ⟨?_, rfl⟩
  unfold latLngToTile specTileX specTileY
  rw [one_div]

/-- Claim C2: `getTilesForBounds` returns exactly the tiles `(z, x, y)` with
`z` drawn from the zoom list, `x` between `tile_x(west, z)` and
`tile_x(east, z)` inclusive, and `y` between `tile_y(north, z)` and
`tile_y(south, z)` inclusive, where `tile_x`/`tile_y` are the components of
`latLngToTile`. -/
theorem getTilesForBounds_mem (bounds : BoundingBox) (zoomLevels : List ℕ) (t : Tile) :
    t ∈ getTilesForBounds bounds zoomLevels ↔
      t.z ∈ zoomLevels ∧
      specTileX bounds.west t.z ≤ t.x ∧ t.x ≤ specTileX bounds.east t.z ∧
      specTileY bounds.north t.z ≤ t.y ∧ t.y ≤ specTileY bounds.south t.z := by
  unfold getTilesForBounds
  simp only [List.mem_flatMap, List.mem_map, latLngToTile_fst, latLngToTile_snd]
  constructor
  · rintro ⟨z, hz, x, hx, y, hy, rfl⟩
    rw [mem_intRange] at hx hy
    exact ⟨hz, hx.1, hx.2, hy.1, hy.2⟩
  · rintro ⟨hz, hx1, hx2, hy1, hy2⟩
    exact ⟨t.z, hz, t.x, mem_intRange.2 ⟨hx1, hx2⟩, t.y, mem_intRange.2 ⟨hy1, hy2⟩, rfl⟩

lemma assocGet_put_same {α : Type} (s : List (String × α)) (k : String) (v : α) :
    assocGet (assocPut s k v) k = some v := by
  simp [assocPut, assocGet]

lemma assocGet_erase_other {α : Type} (s : List (String × α)) (k k' : String)
    (h : k' ≠ k) : assocGet (assocErase s k') k = assocGet s k := by
  induction s with
  | nil => rfl
  | cons e rest ih =>
    obtain ⟨ek, ev⟩ := e
    by_cases he : ek = k' <;> by_cases hk : ek = k
    · exact absurd (he.symm.trans hk) h
    · simp [assocErase, assocGet, he, hk, ih, h, Ne.symm h]
    · simp [assocErase, assocGet, he, hk, ih, h, Ne.symm h]
    · simp [assocErase, assocGet, he, hk, ih, h, Ne.symm h]

lemma assocGet_put_other {α : Type} (s : List (String × α)) (k k' : String) (v : α)
    (h : k' ≠ k) : assocGet (assocPut s k' v) k = assocGet s k := by
  simp only [assocPut, assocGet, if_neg h]
  exact assocGet_erase_other s k k' h

namespace TileCache

lemma saveTile_store (s : State) (z : ℕ) (x y : ℤ) (b : Blob) :
    (saveTile s z x y b).store = assocPut (ensure s).store (getKey z x y) b := rfl

lemma ensure_store (s : State) : (ensure s).store = s.store := by
  unfold ensure init
  split <;> rfl

lemma getTile_fst (s : State) (z : ℕ) (x y : ℤ) :
    (getTile s z x y).1 = assocGet s.store (getKey z x y) := by
  unfold getTile
  rw [ensure_store]

lemma applyWrites_getTile (z : ℕ) (x y : ℤ) (ws : List ((ℕ × ℤ × ℤ) × Blob))
    (hws : ∀ w ∈ ws, getKey w.1.1 w.1.2.1 w.1.2.2 ≠ getKey z x y) (s : State) :
    (getTile (applyWrites s ws) z x y).1 = (getTile s z x y).1 := by
  induction ws generalizing s with
  | nil => rfl
  | cons w rest ih =>
    rw [show applyWrites s (w :: rest) = applyWrites (saveTile s w.1.1 w.1.2.1 w.1.2.2 w.2) rest
        from rfl,
      ih (fun u hu => hws u (List.mem_cons_of_mem w hu)),
      getTile_fst, getTile_fst, saveTile_store, ensure_store,
      assocGet_put_other _ _ _ _ (hws w (List.mem_cons_self w rest))]

end TileCache

/-- Claim C7: after a successful `saveTile(coord, blob)` followed by any
sequence of `saveTile` writes to other keys, `hasTile(coord)` returns `true`
and `getTile(coord)` returns the saved blob; and in every state `hasTile` is
behaviorally `getTile(coord) != absent`. -/
theorem saveTile_hasTile_getTile (s : TileCache.State) (z : ℕ) (x y : ℤ) (b : Blob)
    (ws : List ((ℕ × ℤ × ℤ) × Blob))
    (hws : ∀ w ∈ ws, TileCache.getKey w.1.1 w.1.2.1 w.1.2.2 ≠ TileCache.getKey z x y) :
    (TileCache.hasTile (TileCache.applyWrites (TileCache.saveTile s z x y b) ws) z x y).1 = true ∧
    (TileCache.getTile (TileCache.applyWrites (TileCache.saveTile s z x y b) ws) z x y).1 = some b ∧
    (∀ st : TileCache.State, ∀ z2 : ℕ, ∀ x2 y2 : ℤ,
      ((TileCache.hasTile st z2 x2 y2).1 = true ↔ (TileCache.getTile st z2 x2 y2).1 ≠ none)) := by
  have hget : (TileCache.getTile (TileCache.applyWrites (TileCache.saveTile s z x y b) ws) z x y).1
      = some b := by
    rw [TileCache.applyWrites_getTile z x y ws hws, TileCache.getTile_fst,
      TileCache.saveTile_store, assocGet_put_same]
  refine ⟨?_, hget, ?_⟩
  · simp [TileCache.hasTile, hget]
  · intro st z2 x2 y2
    simp [TileCache.hasTile]

/-- Claim C10: each public Tile Store operation on an uninitialized state
(`db = null`) behaves identically — same result and same final state — to
running it after an explicit successful `init()`; `init` is never a required
precondition. -/
theorem lazyInit_ops_equiv (st : TileCache.Store) (z : ℕ) (x y : ℤ) (b : Blob) :
    TileCache.getTile ⟨none, st⟩ z x y = TileCache.getTile (TileCache.init ⟨none, st⟩) z x y ∧
    TileCache.saveTile ⟨none, st⟩ z x y b = TileCache.saveTile (TileCache.init ⟨none, st⟩) z x y b ∧
    TileCache.hasTile ⟨none, st⟩ z x y = TileCache.hasTile (TileCache.init ⟨none, st⟩) z x y ∧
    TileCache.getStats ⟨none, st⟩ = TileCache.getStats (TileCache.init ⟨none, st⟩) ∧
    TileCache.clear ⟨none, st⟩ = TileCache.clear (TileCache.init ⟨none, st⟩) := by
  refine ⟨?_, ?_, ?_, ?_, ?_⟩ <;>
    simp [TileCache.getTile, TileCache.saveTile, TileCache.hasTile, TileCache.getStats,
      TileCache.clear, TileCache.ensure, TileCache.init]

namespace TilePreloader

lemma updateProgress_good (p : PreloadProgress) : GoodProgress (updateProgress p) := by
  simp [GoodProgress, updateProgress]

lemma preloadTile_ok (env : TileEnv) (p : PreloadProgress) :
    preloadTile env p = Except.ok (tileSuccess env, applyTile p env) := by
  obtain ⟨t, g, f, sv⟩ := env
  rcases g with e | o
  · rcases f with e2 | fb
    · simp [preloadTile, tryCatchE, tileSuccess, applyTile, Except.bind]
    · rcases sv with e3 | u <;>
        simp [preloadTile, tryCatchE, tileSuccess, applyTile, Except.bind]
  · rcases o with _ | b
    · rcases f with e2 | fb
      · simp [preloadTile, tryCatchE, tileSuccess, applyTile, Except.bind]
      · rcases sv with e3 | u <;>
          simp [preloadTile, tryCatchE, tileSuccess, applyTile, Except.bind]
    · simp [preloadTile, tryCatchE, tileSuccess, applyTile, Except.bind]

lemma applyTile_good (p : PreloadProgress) (env : TileEnv) : GoodProgress (applyTile p env) := by
  unfold applyTile countLoaded countFailed
  split <;> exact updateProgress_good _

lemma applyTile_total (p : PreloadProgress) (env : TileEnv) :
    (applyTile p env).total = p.total := by
  unfold applyTile countLoaded countFailed updateProgress
  split <;> rfl

lemma applyTile_sum (p : PreloadProgress) (env : TileEnv) :
    (applyTile p env).loaded + (applyTile p env).failed = p.loaded + p.failed + 1 := by
  unfold applyTile countLoaded countFailed updateProgress
  split <;> simp <;> omega

lemma applyTile_loaded (p : PreloadProgress) (env : TileEnv) :
    (applyTile p env).loaded = if tileSuccess env then p.loaded + 1 else p.loaded := by
  unfold applyTile countLoaded countFailed updateProgress
  split <;> simp_all

lemma applyTile_failed (p : PreloadProgress) (env : TileEnv) :
    (applyTile p env).failed = if tileSuccess env then p.failed else p.failed + 1 := by
  unfold applyTile countLoaded countFailed updateProgress
  split <;> simp_all

lemma emittedFrom_mem (envs : List TileEnv) (p : PreloadProgress) :
    ∀ q ∈ emittedFrom p envs,
      GoodProgress q ∧ q.total = p.total ∧
      q.loaded + q.failed ≤ p.loaded + p.failed + envs.length := by
  induction envs generalizing p with
  | nil =>
    intro q hq
    simp [emittedFrom] at hq
  | cons env rest ih =>
    intro q hq
    simp only [emittedFrom, preloadTile_ok] at hq
    rcases List.mem_cons.mp hq with rfl | hq'
    · refine ⟨applyTile_good p env, applyTile_total p env, ?_⟩
      have := applyTile_sum p env
      simp only [List.length_cons]
      omega
    · obtain ⟨hg, ht, hub⟩ := ih (applyTile p env) q hq'
      have hs := applyTile_sum p env
      refine ⟨hg, ht.trans (applyTile_total p env), ?_⟩
      simp only [List.length_cons]
      omega

lemma emitted_mem (envs : List TileEnv) :
    ∀ p ∈ emitted envs,
      GoodProgress p ∧ p.total = envs.length ∧ p.loaded + p.failed ≤ envs.length := by
  intro p hp
  have h0t : (updateProgress (resetProgress envs.length)).total = envs.length := by
    simp [updateProgress, resetProgress]
  have h0s : (updateProgress (resetProgress envs.length)).loaded
      + (updateProgress (resetProgress envs.length)).failed = 0 := by
    simp [updateProgress, resetProgress]
  rcases List.mem_cons.mp hp with rfl | hp'
  · exact ⟨updateProgress_good _, h0t, by omega⟩
  · obtain ⟨hg, ht, hub⟩ := emittedFrom_mem envs _ p hp'
    exact ⟨hg, ht.trans h0t, by omega⟩

lemma emittedFrom_chain (envs : List TileEnv) (p : PreloadProgress) :
    List.Chain' (fun a b : PreloadProgress => a.loaded + a.failed ≤ b.loaded + b.failed)
      (p :: emittedFrom p envs) := by
  induction envs generalizing p with
  | nil => simp [emittedFrom]
  | cons env rest ih =>
    simp only [emittedFrom, preloadTile_ok]
    rw [List.chain'_cons]
    exact ⟨by have := applyTile_sum p env; omega, ih (applyTile p env)⟩

lemma jsRound_nonneg {q : ℚ} (h : 0 ≤ q) : 0 ≤ jsRound q :=
  Int.le_floor.mpr (by push_cast; linarith)

lemma jsRound_le_100 {q : ℚ} (h : q ≤ 1) (h0 : 0 ≤ q) : jsRound (q * 100) ≤ 100 := by
  have h2 : jsRound (q * 100) < 101 := Int.floor_lt.mpr (by push_cast; linarith)
  omega

lemma preloadAllFrom_cons (p : PreloadProgress) (env : TileEnv) (rest : List TileEnv) :
    preloadAllFrom p (env :: rest) = preloadAllFrom (applyTile p env) rest := by
  show List.foldlM _ p (env :: rest) = _
  rw [List.foldlM_cons, preloadTile_ok]
  rfl

lemma preloadAllFrom_ok (envs : List TileEnv) (p : PreloadProgress) :
    ∃ q : PreloadProgress,
      preloadAllFrom p envs = Except.ok q ∧
      q.total = p.total ∧
      q.loaded = p.loaded + (envs.filter (fun e => tileSuccess e)).length ∧
      q.failed = p.failed + (envs.filter (fun e => !tileSuccess e)).length := by
  induction envs generalizing p with
  | nil => exact ⟨p, rfl, rfl, by simp, by simp⟩
  | cons env rest ih =>
    obtain ⟨q, hq, ht, hl, hf⟩ := ih (applyTile p env)
    refine ⟨q, ?_, ht.trans (applyTile_total p env), ?_, ?_⟩
    · rw [preloadAllFrom_cons]
      exact hq
    · rw [hl, applyTile_loaded]
      cases hs : tileSuccess env <;> simp [hs, List.filter_cons] <;> omega
    · rw [hf, applyTile_failed]
      cases hs : tileSuccess env <;> simp [hs, List.filter_cons] <;> omega

lemma filter_sum_length (envs : List TileEnv) :
    (envs.filter (fun e => tileSuccess e)).length
      + (envs.filter (fun e => !tileSuccess e)).length = envs.length := by
  induction envs with
  | nil => rfl
  | cons env rest ih =>
    cases hs : tileSuccess env <;> simp [List.filter_cons, hs] <;> omega

end TilePreloader

/-- Claim C3: at every progress update of a `preloadAll` run (the initial
emission and the one after each tile attempt, the final progress included),
`loaded + failed` never exceeds `total`, `percentage` equals
`round(100 * (loaded + failed) / total)` and lies in `[0, 100]`, and
`loaded + failed` is monotonically non-decreasing from each update to the
next. -/
theorem preload_progress_invariants (envs : List TilePreloader.TileEnv)
    (h : 0 < envs.length) :
    (∀ p ∈ TilePreloader.emitted envs,
        p.loaded + p.failed ≤ p.total ∧
        p.percentage = jsRound (100 * ((p.loaded + p.failed : ℕ) : ℚ) / (p.total : ℚ)) ∧
        0 ≤ p.percentage ∧ p.percentage ≤ 100) ∧
    List.Chain' (fun a b : PreloadProgress => a.loaded + a.failed ≤ b.loaded + b.failed)
      (TilePreloader.emitted envs) := by
  constructor
  · intro p hp
    obtain ⟨⟨hpc, _⟩, ht, hs⟩ := TilePreloader.emitted_mem envs p hp
    have htpos : 0 < p.total := by omega
    have hfrac0 : (0 : ℚ) ≤ ((p.loaded : ℚ) + (p.failed : ℚ)) / (p.total : ℚ) := by positivity
    have hfrac1 : ((p.loaded : ℚ) + (p.failed : ℚ)) / (p.total : ℚ) ≤ 1 := by
      rw [div_le_one (by exact_mod_cast htpos)]
      push_cast
      exact_mod_cast (by omega : p.loaded + p.failed ≤ p.total)
    refine ⟨by omega, ?_, ?_, ?_⟩
    · rw [hpc]
      congr 1
      push_cast
      ring
    · rw [hpc]
      exact TilePreloader.jsRound_nonneg (by positivity)
    · rw [hpc]
      exact TilePreloader.jsRound_le_100 hfrac1 hfrac0
  · exact TilePreloader.emittedFrom_chain envs _

/-- Claim C4: every progress record emitted during or at the end of a
`preloadAll` run has `isComplete = true` exactly when
`loaded + failed = total`. -/
theorem preload_isComplete_iff (envs : List TilePreloader.TileEnv)
    (h : 0 < envs.length) :
    ∀ p ∈ TilePreloader.emitted envs,
      (p.isComplete = true ↔ p.loaded + p.failed = p.total) := by
  intro p hp
  obtain ⟨⟨_, hic⟩, _, hs⟩ := TilePreloader.emitted_mem envs p hp
  rw [hic, decide_eq_true_iff]
  omega

/-- Claim C5: a `preloadAll` run started when idle always resolves (never
rejects): every per-tile environment list — including ones whose cache
lookups, fetches or stores reject — yields `Except.ok`; each failing tile is
counted in `failed` (not `loaded`), each succeeding tile in `loaded`, and
the run processes all tiles to completion (`loaded + failed = total`). -/
theorem preloadAll_never_rejects (p : PreloadProgress) (envs : List TilePreloader.TileEnv) :
    ∃ final : PreloadProgress,
      TilePreloader.preloadAll ⟨false, p⟩ envs =
        Except.ok ({ isPreloading := false, progress := final }, envs.length) ∧
      final.loaded = (envs.filter (fun e => TilePreloader.tileSuccess e)).length ∧
      final.failed = (envs.filter (fun e => !TilePreloader.tileSuccess e)).length ∧
      final.total = envs.length ∧
      final.loaded + final.failed = final.total := by
  obtain ⟨q, hq, ht, hl, hf⟩ :=
    TilePreloader.preloadAllFrom_ok envs
      (TilePreloader.updateProgress (TilePreloader.resetProgress envs.length))
  have h0t : (TilePreloader.updateProgress (TilePreloader.resetProgress envs.length)).total
      = envs.length := by
    simp [TilePreloader.updateProgress, TilePreloader.resetProgress]
  have h0l : (TilePreloader.updateProgress (TilePreloader.resetProgress envs.length)).loaded
      = 0 := by
    simp [TilePreloader.updateProgress, TilePreloader.resetProgress]
  have h0f : (TilePreloader.updateProgress (TilePreloader.resetProgress envs.length)).failed
      = 0 := by
    simp [TilePreloader.updateProgress, TilePreloader.resetProgress]
  have hsum := TilePreloader.filter_sum_length envs
  refine ⟨q, ?_, by omega, by omega, by omega, by omega⟩
  simp only [TilePreloader.preloadAll, Bool.false_eq_true, if_false, hq, Except.map]

/-- Claim C6: invoking `preloadAll` while `isPreloading` is true is a no-op:
it returns at once with the state — `total`, `loaded`, `failed`,
`percentage` and `isComplete` of the in-flight progress included —
unchanged, no reset, and zero tile attempts started. -/
theorem preloadAll_noop_when_preloading (s : TilePreloader.State)
    (envs : List TilePreloader.TileEnv) (h : s.isPreloading = true) :
    TilePreloader.preloadAll s envs = Except.ok (s, 0) := by
  simp [TilePreloader.preloadAll, h]

/-- Claim C8: `checkCachedCount` performs exactly one `hasTile` existence
check per tile of the TileSet it is given (the same `this.tiles` array
`preloadAll` iterates) and no network fetch; it returns `cached` equal to
the number of tiles whose check resolved `true` (a rejected check counts as
not cached) and `total` equal to the TileSet size. -/
theorem checkCachedCount_readonly (tiles : List Tile)
    (hasResult : Tile → Except Unit Bool) :
    (TilePreloader.checkCachedCount tiles hasResult).1
        = tiles.map TilePreloader.CacheOp.hasTileOp ∧
    (∀ op ∈ (TilePreloader.checkCachedCount tiles hasResult).1,
        ∀ t : Tile, op ≠ TilePreloader.CacheOp.fetchOp t) ∧
    (TilePreloader.checkCachedCount tiles hasResult).2.cached
        = (tiles.filter (fun t => hasResult t = Except.ok true)).length ∧
    (TilePreloader.checkCachedCount tiles hasResult).2.total = tiles.length := by
  have main : ∀ acc : List TilePreloader.CacheOp × ℕ,
      (tiles.foldl (TilePreloader.checkStep hasResult) acc).1
          = acc.1 ++ tiles.map TilePreloader.CacheOp.hasTileOp ∧
      (tiles.foldl (TilePreloader.checkStep hasResult) acc).2
          = acc.2 + (tiles.filter (fun t => hasResult t = Except.ok true)).length := by
    induction tiles with
    | nil => intro acc; simp
    | cons t rest ih =>
      intro acc
      rw [List.foldl_cons]
      obtain ⟨ih1, ih2⟩ := ih (TilePreloader.checkStep hasResult acc t)
      constructor
      · rw [ih1]
        rcases hr : hasResult t with e | b
        · simp [TilePreloader.checkStep, hr]
        · cases b <;> simp [TilePreloader.checkStep, hr]
      · rw [ih2]
        rcases hr : hasResult t with e | b
        · simp [TilePreloader.checkStep, hr, List.filter_cons]
        · cases b <;> simp [TilePreloader.checkStep, hr, List.filter_cons] <;> omega
  obtain ⟨h1, h2⟩ := main ([], 0)
  refine ⟨?_, ?_, ?_, rfl⟩
  · simpa [TilePreloader.checkCachedCount] using h1
  · intro op hop t
    rw [show (TilePreloader.checkCachedCount tiles hasResult).1
        = tiles.map TilePreloader.CacheOp.hasTileOp from by
      simpa [TilePreloader.checkCachedCount] using h1] at hop
    obtain ⟨u, _, rfl⟩ := List.mem_map.mp hop
    intro hc
    exact TilePreloader.CacheOp.noConfusion hc
  · simpa [TilePreloader.checkCachedCount] using h2

lemma assocGet_erase_same {α : Type} (s : List (String × α)) (k : String) :
    assocGet (assocErase s k) k = none := by
  induction s with
  | nil => rfl
  | cons e rest ih =>
    obtain ⟨ek, ev⟩ := e
    by_cases he : ek = k <;> simp [assocErase, assocGet, he, ih]

/-- Claim C9 counterexample: a completed progress with `percentage = 100`
(so `isComplete` and `percentage >= 90` both hold) does not store `"true"`
under the key `"tilesPreloaded"` — the code writes under
`'@SemanaSanta:tilesPreloaded'` instead. -/
theorem tilesPreloaded_key_counterexample :
    (PreloadProgress.mk 4 4 0 100 true).isComplete = true ∧
    90 ≤ (PreloadProgress.mk 4 4 0 100 true).percentage ∧
    ¬ (assocGet
        (UseTilePreload.handleProgress (PreloadProgress.mk 4 4 0 100 true) []
          ⟨none, false, true⟩).1 "tilesPreloaded" = some "true") := by
  refine ⟨rfl, by norm_num, ?_⟩
  decide

/-- Claim C9 amended: the progress handler persists the string `"true"`
under the key `"@SemanaSanta:tilesPreloaded"` exactly when it receives a
progress with `isComplete` true and `percentage >= 90` (otherwise the store
is untouched, so the flag is never cleared by progress handling); the
mount-time check reads that key to decide the preloaded state; the flag is
removed by explicit reset. -/
theorem handleProgress_persistence (p : PreloadProgress) (kv : UseTilePreload.KVStore)
    (ui : UseTilePreload.HookState) :
    ((UseTilePreload.handleProgress p kv ui).1 =
        if p.isComplete = true ∧ 90 ≤ p.percentage then
          assocPut kv "@SemanaSanta:tilesPreloaded" "true"
        else kv) ∧
    (assocGet (UseTilePreload.handleProgress p kv ui).1 "@SemanaSanta:tilesPreloaded" =
        if p.isComplete = true ∧ 90 ≤ p.percentage then some "true"
        else assocGet kv "@SemanaSanta:tilesPreloaded") ∧
    ((UseTilePreload.checkPreloadStatus kv ui).isPreloaded =
        if assocGet kv "@SemanaSanta:tilesPreloaded" = some "true" then true
        else ui.isPreloaded) ∧
    assocGet (UseTilePreload.resetPreloadStatus kv).1 "@SemanaSanta:tilesPreloaded" = none := by
  have h3 : (UseTilePreload.checkPreloadStatus kv ui).isPreloaded =
      (if assocGet kv "@SemanaSanta:tilesPreloaded" = some "true" then true
       else ui.isPreloaded) := by
    by_cases hkv : assocGet kv "@SemanaSanta:tilesPreloaded" = some "true"
    · simp [UseTilePreload.checkPreloadStatus, UseTilePreload.PRELOAD_STATUS_KEY, hkv]
    · simp [UseTilePreload.checkPreloadStatus, UseTilePreload.PRELOAD_STATUS_KEY, hkv]
  have h4 : assocGet (UseTilePreload.resetPreloadStatus kv).1 "@SemanaSanta:tilesPreloaded"
      = none := assocGet_erase_same kv _
  by_cases hand : p.isComplete = true ∧ 90 ≤ p.percentage
  · have hb : (p.isComplete && decide (90 ≤ p.percentage)) = true := by
      simp [hand.1, hand.2]
    refine ⟨?_, ?_, h3, h4⟩
    · simp [UseTilePreload.handleProgress, UseTilePreload.PRELOAD_STATUS_KEY, hb, hand]
    · simp [UseTilePreload.handleProgress, UseTilePreload.PRELOAD_STATUS_KEY, hb, hand,
        assocGet_put_same]
  · have hb : (p.isComplete && decide (90 ≤ p.percentage)) = false := by
      cases hic : p.isComplete
      · simp
      · simp only [Bool.true_and, decide_eq_false_iff_not]
        intro h90
        exact hand ⟨hic, h90⟩
    refine ⟨?_, ?_, h3, h4⟩
    · simp [UseTilePreload.handleProgress, hb, hand]
    · simp [UseTilePreload.handleProgress, hb, hand]

theorem preload_progress_invariants_witness :
    0 < ([envFetch, envFail] : List TilePreloader.TileEnv).length ∧
    ((∀ p ∈ TilePreloader.emitted [envFetch, envFail],
        p.loaded + p.failed ≤ p.total ∧
        p.percentage = jsRound (100 * ((p.loaded + p.failed : ℕ) : ℚ) / (p.total : ℚ)) ∧
        0 ≤ p.percentage ∧ p.percentage ≤ 100) ∧
      List.Chain' (fun a b : PreloadProgress => a.loaded + a.failed ≤ b.loaded + b.failed)
        (TilePreloader.emitted [envFetch, envFail])) :=
  ⟨by decide, preload_progress_invariants [envFetch, envFail] (by decide)⟩

theorem preload_isComplete_iff_witness :
    0 < ([envHit, envFail] : List TilePreloader.TileEnv).length ∧
    (∀ p ∈ TilePreloader.emitted [envHit, envFail],
      (p.isComplete = true ↔ p.loaded + p.failed = p.total)) :=
  ⟨by decide, preload_isComplete_iff [envHit, envFail] (by decide)⟩

theorem preloadAll_noop_witness :
    (TilePreloader.State.mk true ⟨10, 3, 1, 40, false⟩).isPreloading = true ∧
    TilePreloader.preloadAll (TilePreloader.State.mk true ⟨10, 3, 1, 40, false⟩) [envFetch] =
      Except.ok (TilePreloader.State.mk true ⟨10, 3, 1, 40, false⟩, 0) :=
  ⟨rfl, preloadAll_noop_when_preloading (TilePreloader.State.mk true ⟨10, 3, 1, 40, false⟩)
    [envFetch] rfl⟩

theorem saveTile_hasTile_getTile_witness :
    (∀ w ∈ ([((15, 2, 3), 9)] : List ((ℕ × ℤ × ℤ) × Blob)),
        TileCache.getKey w.1.1 w.1.2.1 w.1.2.2 ≠ TileCache.getKey 14 2 3) ∧
    ((TileCache.hasTile
        (TileCache.applyWrites (TileCache.saveTile ⟨none, []⟩ 14 2 3 5) [((15, 2, 3), 9)])
        14 2 3).1 = true ∧
     (TileCache.getTile
        (TileCache.applyWrites (TileCache.saveTile ⟨none, []⟩ 14 2 3 5) [((15, 2, 3), 9)])
        14 2 3).1 = some 5 ∧
     (∀ st : TileCache.State, ∀ z2 : ℕ, ∀ x2 y2 : ℤ,
        ((TileCache.hasTile st z2 x2 y2).1 = true ↔ (TileCache.getTile st z2 x2 y2).1 ≠ none))) :=
  ⟨by decide, saveTile_hasTile_getTile ⟨none, []⟩ 14 2 3 5 [((15, 2, 3), 9)] (by decide)⟩

theorem checkCachedCount_readonly_witness :
    (TilePreloader.checkCachedCount
        [⟨16, 32485, 25878⟩, ⟨16, 32486, 25878⟩, ⟨16, 32487, 25878⟩] hasResultW).1
      = ([⟨16, 32485, 25878⟩, ⟨16, 32486, 25878⟩, ⟨16, 32487, 25878⟩] : List Tile).map
          TilePreloader.CacheOp.hasTileOp ∧
    (∀ op ∈ (TilePreloader.checkCachedCount
        [⟨16, 32485, 25878⟩, ⟨16, 32486, 25878⟩, ⟨16, 32487, 25878⟩] hasResultW).1,
      ∀ t : Tile, op ≠ TilePreloader.CacheOp.fetchOp t) ∧
    (TilePreloader.checkCachedCount
        [⟨16, 32485, 25878⟩, ⟨16, 32486, 25878⟩, ⟨16, 32487, 25878⟩] hasResultW).2.cached
      = (([⟨16, 32485, 25878⟩, ⟨16, 32486, 25878⟩, ⟨16, 32487, 25878⟩] : List Tile).filter
          (fun t => hasResultW t = Except.ok true)).length ∧
    (TilePreloader.checkCachedCount
        [⟨16, 32485, 25878⟩, ⟨16, 32486, 25878⟩, ⟨16, 32487, 25878⟩] hasResultW).2.total
      = ([⟨16, 32485, 25878⟩, ⟨16, 32486, 25878⟩, ⟨16, 32487, 25878⟩] : List Tile).length :=
  checkCachedCount_readonly
    [⟨16, 32485, 25878⟩, ⟨16, 32486, 25878⟩, ⟨16, 32487, 25878⟩] hasResultW

end SemanaSanta
